import Mathlib

/-!
Shallow embedding of the sales ETL pipeline (src/etl.py) and proofs about its
transform stage and report queries.

Modelling conventions:
* a pandas DataFrame cell is an `Option String` (missing = NaN);
* coerced numerics are exact rationals `ℚ` (pandas float64 idealised);
* a coerced date is an `Option Date`; an unparsable value is `none` (NaT);
* the DataFrame row index is carried explicitly as the first component of a
  `Nat × Row` pair, so that filtering keeps original labels and
  reset_index can be modelled faithfully;
* pandas float division by zero (inf/NaN) is modelled as the missing marker
  `none` in `safeDiv`; it is proved unreachable on the pipeline output;
* `.round(n)` of pandas/numpy is round-half-to-even, modelled by
  `roundHalfEven` on exact rationals.

String primitives (strip/lower/split and the value parsers behind
pd.to_datetime / pd.to_numeric with errors="coerce") are implemented on
`List Char` so that every definition evaluates inside the kernel.  The
numeric parser accepts optionally signed decimal strings, the date parser
ISO `YYYY-MM-DD` dates, which covers the pipeline's fixtures; on all other
inputs both return the missing marker exactly as errors="coerce" does.
-/

namespace SalesEtl

/-- Calendar date as parsed by pd.to_datetime, compared chronologically. -/
structure Date where
  year : Nat
  month : Nat
  day : Nat
  deriving DecidableEq, Repr

/-- Whitespace test used by strip(): the ASCII space and control whitespace. -/
def isSpaceChar (c : Char) : Bool := c.isWhitespace

/-- Model of str.strip() on a character list. -/
def trimChars (cs : List Char) : List Char :=
  ((cs.dropWhile isSpaceChar).reverse.dropWhile isSpaceChar).reverse

/-- Model of str.lower() for ASCII letters, characterwise. -/
def charLower (c : Char) : Char :=
  if 'A' ≤ c ∧ c ≤ 'Z' then Char.ofNat (c.toNat + 32) else c

/-- Column-name normalization of line 33: c.strip().lower(). -/
def normalizeCol (s : String) : String :=
  ⟨(trimChars s.data).map charLower⟩

/-- Digit-string parser: all characters are digits and there is at least one. -/
def parseNatDigits (cs : List Char) : Option Nat :=
  if cs ≠ [] ∧ cs.all Char.isDigit then
    some (cs.foldl (fun n c => 10 * n + (c.toNat - 48)) 0)
  else none

/-- Split a character list on a separator character. -/
def splitOnChar (sep : Char) : List Char → List (List Char)
  | [] => [[]]
  | x :: xs =>
    let r := splitOnChar sep xs
    if x = sep then [] :: r
    else
      match r with
      | [] => [[x]]
      | y :: ys => (x :: y) :: ys

/-- Gregorian leap-year rule, used to validate parsed days. -/
def isLeapYear (y : Nat) : Bool :=
  decide (y % 4 = 0 ∧ (y % 100 ≠ 0 ∨ y % 400 = 0))

/-- Number of days of a month, for date validation. -/
def daysInMonth (y m : Nat) : Nat :=
  if m = 2 then (if isLeapYear y then 29 else 28)
  else if m = 4 ∨ m = 6 ∨ m = 9 ∨ m = 11 then 30
  else 31

/-- Model of pd.to_datetime(value, errors="coerce") on ISO dates: parse
YYYY-MM-DD and validate the calendar; any other value becomes NaT (none). -/
def parseDate (s : String) : Option Date :=
  match splitOnChar '-' (trimChars s.data) with
  | [ys, ms, ds] =>
    match parseNatDigits ys, parseNatDigits ms, parseNatDigits ds with
    | some y, some m, some d =>
      if 1 ≤ m ∧ m ≤ 12 ∧ 1 ≤ d ∧ d ≤ daysInMonth y m then
        some ⟨y, m, d⟩
      else none
    | _, _, _ => none
  | _ => none

/-- Model of pd.to_numeric(value, errors="coerce") on decimal strings:
an optional sign, an integer part, and an optional fractional part; any
other value becomes NaN (none). -/
def parseNum (s : String) : Option ℚ :=
  let cs := trimChars s.data
  let signAndRest : Bool × List Char :=
    match cs with
    | '-' :: r => (true, r)
    | '+' :: r => (false, r)
    | r => (false, r)
  let withSign : ℚ → ℚ := fun q => if signAndRest.1 then -q else q
  match splitOnChar '.' signAndRest.2 with
  | [ip] => (parseNatDigits ip).map (fun n => withSign ((n : ℤ) : ℚ))
  | [ip, fp] =>
    match parseNatDigits ip, parseNatDigits fp with
    | some n, some f =>
      some (withSign (((n : ℤ) : ℚ) + ((f : ℤ) : ℚ) / (10 : ℚ) ^ fp.length))
    | _, _ => none
  | _ => none

/-- Row of the DataFrame after column coercion (lines 42-46): the six
required columns in their coerced types plus the raw values of every
extra column, which pandas keeps until the projection of line 70. -/
structure Row where
  date : Option Date
  region : Option String
  product : Option String
  sales : Option ℚ
  quantity : Option ℚ
  profit : Option ℚ
  extra : List (Option String)
  deriving DecidableEq, Repr

/-- Raw table as read from the CSV: column names and untyped rows, each row
aligned with the column list; a missing cell is none. -/
structure RawFrame where
  cols : List String
  rows : List (List (Option String))
  deriving Repr

/-- Required columns of line 36. -/
def requiredCols : List String :=
  ["date", "region", "product", "sales", "quantity", "profit"]

/-- Missing-column computation of line 37: required - set(df.columns) after
the rename of line 33. -/
def missingCols (f : RawFrame) : List String :=
  requiredCols.filter (fun c => decide (c ∉ f.cols.map normalizeCol))

/-- Value of the named column in a raw row: position of the first column
whose normalized name matches, then that cell. -/
def lookupCell (normCols : List String) (r : List (Option String)) (name : String) :
    Option String :=
  match normCols.findIdx? (fun c => decide (c = name)) with
  | some i => r.getD i none
  | none => none

/-- Raw values of the non-required columns of a row, in column order. -/
def extraVals (normCols : List String) (r : List (Option String)) :
    List (Option String) :=
  ((normCols.zip r).filter (fun p => decide (p.1 ∉ requiredCols))).map Prod.snd

/-- Field coercion of lines 42-46 applied to one raw row. -/
def coerceRow (normCols : List String) (r : List (Option String)) : Row :=
  { date := (lookupCell normCols r "date").bind parseDate
    region := lookupCell normCols r "region"
    product := lookupCell normCols r "product"
    sales := (lookupCell normCols r "sales").bind parseNum
    quantity := (lookupCell normCols r "quantity").bind parseNum
    profit := (lookupCell normCols r "profit").bind parseNum
    extra := extraVals normCols r }

/-- Coerced rows paired with their original RangeIndex labels. -/
def coercedRows (f : RawFrame) : List (Nat × Row) :=
  f.rows.enum.map (fun p => (p.1, coerceRow (f.cols.map normalizeCol) p.2))

/-- Region fill of line 49: fillna("Unknown") followed by
replace of the exact empty string by "Unknown". -/
def fillRegion (r : Row) : Row :=
  { r with
    region :=
      match r.region with
      | none => some "Unknown"
      | some s => if s = "" then some "Unknown" else some s }

/-- Accumulator loop behind duplicate removal: keep an element whenever its
key has not been seen yet. -/
def dropDupAux {α β : Type} [DecidableEq β] (key : α → β) :
    List β → List α → List α
  | _, [] => []
  | seen, x :: xs =>
    if key x ∈ seen then dropDupAux key seen xs
    else x :: dropDupAux key (key x :: seen) xs

/-- Duplicate removal of line 50: df.drop_duplicates() compares all columns
(and not the index), keeping the first occurrence. -/
def dropDuplicates {α β : Type} [DecidableEq β] (key : α → β) (l : List α) :
    List α :=
  dropDupAux key [] l

/-- Rows after the region fill of line 49. -/
def filledRows (pairs : List (Nat × Row)) : List (Nat × Row) :=
  pairs.map (fun p => (p.1, fillRegion p.2))

/-- Rows after the duplicate removal of line 50. -/
def dedupedRows (pairs : List (Nat × Row)) : List (Nat × Row) :=
  dropDuplicates Prod.snd (filledRows pairs)

/-- Completeness test of line 54: no missing value in the five listed
columns (dropna subset). -/
def rowComplete (r : Row) : Bool :=
  r.date.isSome && r.product.isSome && r.quantity.isSome &&
    r.sales.isSome && r.profit.isSome

/-- Positivity test of line 55: (df.quantity > 0) & (df.sales > 0); on a
missing value the comparison is false, as in pandas. -/
def rowPositive (r : Row) : Bool :=
  decide (0 < r.quantity.getD 0) && decide (0 < r.sales.getD 0)

/-- Rows surviving the dropna of line 54. -/
def completeRows (pairs : List (Nat × Row)) : List (Nat × Row) :=
  (dedupedRows pairs).filter (fun p => rowComplete p.2)

/-- Row sanitizer, lines 49-55: region fill, duplicate removal, dropna,
positivity filter, in that order. -/
def sanitize (pairs : List (Nat × Row)) : List (Nat × Row) :=
  (completeRows pairs).filter (fun p => rowPositive p.2)

/-- Diagnostic count of lines 53-57: len(df) is taken after the duplicate
removal and again after the positivity filter. -/
def droppedCount (pairs : List (Nat × Row)) : Nat :=
  (dedupedRows pairs).length - (sanitize pairs).length

/-- Record holding exactly the output columns of lines 66-69. -/
structure OutRecord where
  date : Option Date
  year : Option Nat
  month : Option Nat
  region : Option String
  product : Option String
  quantity : Option ℚ
  unit_price : Option ℚ
  sales : Option ℚ
  profit : Option ℚ
  profit_margin : Option ℚ
  deriving DecidableEq, Repr

/-- Round half to even (the numpy rounding of Series.round) to an integer. -/
def roundHalfEven (x : ℚ) : ℤ :=
  let f : ℤ := ⌊x⌋
  let r : ℚ := x - (f : ℚ)
  if r < 1 / 2 then f
  else if 1 / 2 < r then f + 1
  else if f % 2 = 0 then f else f + 1

/-- Series.round(p): round half to even at p decimal places. -/
def roundTo (p : ℕ) (x : ℚ) : ℚ :=
  ((roundHalfEven (x * (10 : ℚ) ^ p) : ℤ) : ℚ) / (10 : ℚ) ^ p

/-- Division producing the missing marker on a zero divisor; stands for the
inf/NaN a pandas float division by zero would produce. -/
def safeDiv (a b : ℚ) : Option ℚ :=
  if b = 0 then none else some (a / b)

/-- Derivation step of lines 60-63: unit_price, profit_margin, year, month. -/
def derive (r : Row) : OutRecord :=
  { date := r.date
    year := r.date.map Date.year
    month := r.date.map Date.month
    region := r.region
    product := r.product
    quantity := r.quantity
    unit_price :=
      r.sales.bind fun s => r.quantity.bind fun q => (safeDiv s q).map (roundTo 2)
    sales := r.sales
    profit := r.profit
    profit_margin :=
      r.profit.bind fun p => r.sales.bind fun s => (safeDiv p s).map (roundTo 4) }

/-- Derived records of lines 60-63, still carrying their index labels. -/
def derivedRows (pairs : List (Nat × Row)) : List (Nat × OutRecord) :=
  (sanitize pairs).map (fun p => (p.1, derive p.2))

/-- Comparator built from a projection, for lexicographic sort keys. -/
def onCmp {α β : Type} (key : α → β) (cmp : β → β → Ordering) (a b : α) :
    Ordering :=
  cmp (key a) (key b)

instance {α β : Type} (key : α → β) (cmp : β → β → Ordering)
    [inst : Batteries.TransCmp cmp] : Batteries.TransCmp (onCmp key cmp) where
  symm a b := inst.symm (key a) (key b)
  le_trans h1 h2 := inst.le_trans h1 h2

/-- Chronological comparison of dates: year, then month, then day. -/
def dateCmp : Date → Date → Ordering :=
  compareLex (onCmp Date.year compare)
    (compareLex (onCmp Date.month compare) (onCmp Date.day compare))

instance : Batteries.TransCmp dateCmp :=
  inferInstanceAs (Batteries.TransCmp (compareLex _ _))

/-- Lexicographic comparison of character lists by code point, the string
order Python uses when pandas sorts an object column. -/
def charsCmp : List Char → List Char → Ordering
  | [], [] => .eq
  | [], _ :: _ => .lt
  | _ :: _, [] => .gt
  | a :: as, b :: bs => (compare a b).then (charsCmp as bs)

/-- Lexicographic string comparison. -/
def strCmp (a b : String) : Ordering := charsCmp a.data b.data

/-- Comparison on an optional value putting the missing marker last, the
na_position="last" default of sort_values. -/
def optCmp {α : Type} (cmp : α → α → Ordering) :
    Option α → Option α → Ordering
  | none, none => .eq
  | none, some _ => .gt
  | some _, none => .lt
  | some a, some b => cmp a b

/-- Sort key of line 70: lexicographic on (date, region, product). -/
def keyCmp : OutRecord → OutRecord → Ordering :=
  compareLex (onCmp OutRecord.date (optCmp dateCmp))
    (compareLex (onCmp OutRecord.region (optCmp strCmp))
      (onCmp OutRecord.product (optCmp strCmp)))

/-- Boolean order used to run the stable sort on records. -/
def rowLE (a b : OutRecord) : Bool := decide (keyCmp a b ≠ Ordering.gt)

/-- Order on indexed records: sort_values looks only at the row values. -/
def pairLE (a b : Nat × OutRecord) : Bool := rowLE a.2 b.2

/-- Sorted records of line 70; sort_values on several keys is a stable
lexicographic sort. -/
def sortedRows (pairs : List (Nat × Row)) : List (Nat × OutRecord) :=
  (derivedRows pairs).mergeSort pairLE

/-- Output column list of lines 66-69. -/
def outputCols : List String :=
  ["date", "year", "month", "region", "product",
   "quantity", "unit_price", "sales", "profit", "profit_margin"]

/-- Transform result: final records with their re-sequenced index, plus the
dropped-row diagnostic of line 57. -/
structure TransformOutput where
  records : List (Nat × OutRecord)
  dropped : Nat
  deriving DecidableEq, Repr

/-- Successful branch of transform, lines 42-73: coercion, sanitizing,
derivation, projection, sort, reset_index. -/
def transformOk (f : RawFrame) : TransformOutput :=
  { records := ((sortedRows (coercedRows f)).map Prod.snd).enum
    dropped := droppedCount (coercedRows f) }

/-- Transform, lines 29-73: normalize column names, fail on missing required
columns listing exactly those, otherwise clean and derive. -/
def transform (f : RawFrame) : Except (List String) TransformOutput :=
  if (missingCols f).isEmpty then .ok (transformOk f) else .error (missingCols f)

/-- Distinct product values of the persisted records in order of first
appearance: the groups a GROUP BY product forms. -/
def productKeys (recs : List OutRecord) : List (Option String) :=
  dropDuplicates id (recs.map OutRecord.product)

/-- Grouped, rounded profit totals of the top_5_products_by_profit query of
lines 106-112: SUM(profit) per product group, rounded to 2 decimals; SUM
ignores missing values. -/
def groupTotals (recs : List OutRecord) : List (Option String × ℚ) :=
  (productKeys recs).map fun k =>
    (k, roundTo 2 (((recs.filter fun r => decide (r.product = k)).filterMap
      OutRecord.profit).sum))

/-- Report top_5_products_by_profit of lines 106-112: totals by product,
ordered by total descending (ties in first-appearance order) and truncated
to 5 rows. -/
def topProductsByProfit (recs : List OutRecord) : List (Option String × ℚ) :=
  ((groupTotals recs).mergeSort (fun a b => decide (b.2 ≤ a.2))).take 5

/-! Spec-side models: the sanitizer steps as the specification words them
(section 4.3), used to compare the code's sanitizer against the spec. -/

/-- Spec-side model of 4.3 step 1: replace a missing or empty region value
by the sentinel. -/
def specFillRegion (r : Row) : Row :=
  if r.region = none ∨ r.region = some "" then
    { r with region := some "Unknown" }
  else r

/-- Spec-side model of 4.3 step 2 (first occurrence wins, order among
survivors preserved): keep the head and delete its later exact duplicates,
then continue with the rest. -/
def keepFirstOccurrences {α β : Type} [DecidableEq β] (key : α → β) :
    List α → List α
  | [] => []
  | x :: xs =>
    x :: keepFirstOccurrences key (xs.filter fun y => decide (key y ≠ key x))
termination_by l => l.length
decreasing_by
  simp only [List.length_cons]
  exact Nat.lt_succ_of_le (List.length_filter_le _ _)

/-- Spec-side model of 4.3 step 3: the row has a missing value in date,
product, quantity, sales or profit. -/
def specIncomplete (r : Row) : Bool :=
  decide (r.date = none ∨ r.product = none ∨ r.quantity = none ∨
    r.sales = none ∨ r.profit = none)

/-- Spec-side model of 4.3 step 4: the quantity or the sales value of the
row is nonpositive. -/
def specNonpositive (r : Row) : Bool :=
  (r.quantity.any fun q => decide (q ≤ 0)) ||
    (r.sales.any fun s => decide (s ≤ 0))

/-- Spec-side sanitizer: the four steps of 4.3 in the spec order. -/
def specSanitize (pairs : List (Nat × Row)) : List (Nat × Row) :=
  ((keepFirstOccurrences Prod.snd
        (pairs.map fun p => (p.1, specFillRegion p.2))).filter
      (fun p => ! specIncomplete p.2)).filter
    (fun p => ! specNonpositive p.2)

/-! Concrete fixtures used to witness the theorems on explicit inputs. -/

/-- Fixture: a well-formed single-row frame. -/
def exF : RawFrame :=
  { cols := ["date", "region", "product", "quantity", "sales", "profit"]
    rows := [[some "2024-01-05", some "East", some "Widget",
              some "10", some "100", some "20"]] }

/-- Record the pipeline produces from the row of exF. -/
def exRec : OutRecord :=
  { date := some ⟨2024, 1, 5⟩, year := some 2024, month := some 1
    region := some "East", product := some "Widget"
    quantity := some 10, unit_price := some 10
    sales := some 100, profit := some 20, profit_margin := some (1 / 5) }

/-- Transform output on exF. -/
def exOut : TransformOutput := { records := [(0, exRec)], dropped := 0 }

/-- Fixture for the retained-row scenario: empty region, negative profit. -/
def gadgetF : RawFrame :=
  { cols := ["date", "region", "product", "quantity", "sales", "profit"]
    rows := [[some "2024-02-01", some "", some "Gadget",
              some "5", some "50", some "-5"]] }

/-- Record the pipeline produces from the row of gadgetF. -/
def gadgetRec : OutRecord :=
  { date := some ⟨2024, 2, 1⟩, year := some 2024, month := some 2
    region := some "Unknown", product := some "Gadget"
    quantity := some 5, unit_price := some 10
    sales := some 50, profit := some (-5), profit_margin := some (-1 / 10) }

/-- Transform output on gadgetF. -/
def gadgetOut : TransformOutput := { records := [(0, gadgetRec)], dropped := 0 }

/-- Fixture with two byte-identical valid rows: the duplicate is removed
before the bad-row counter takes its first reading. -/
def dupF : RawFrame :=
  { cols := ["date", "region", "product", "quantity", "sales", "profit"]
    rows := [[some "2024-01-05", some "East", some "Widget",
              some "10", some "100", some "20"],
             [some "2024-01-05", some "East", some "Widget",
              some "10", some "100", some "20"]] }

/-- Transform output on dupF: one record survives, dropped counter is 0. -/
def dupOut : TransformOutput := { records := [(0, exRec)], dropped := 0 }

/-- Fixture with an extra source column in which two otherwise identical
rows differ. -/
def extraF : RawFrame :=
  { cols := ["date", "region", "product", "quantity", "sales", "profit", "note"]
    rows := [[some "2024-01-05", some "East", some "Widget",
              some "10", some "100", some "20", some "A"],
             [some "2024-01-05", some "East", some "Widget",
              some "10", some "100", some "20", some "B"]] }

/-- Transform output on extraF: both rows survive deduplication and project
to the same record. -/
def extraOut : TransformOutput :=
  { records := [(0, exRec), (1, exRec)], dropped := 0 }

/-- Fixture whose region is a non-empty whitespace-only string. -/
def wsF : RawFrame :=
  { cols := ["date", "region", "product", "quantity", "sales", "profit"]
    rows := [[some "2024-01-05", some " ", some "Widget",
              some "10", some "100", some "20"]] }

/-- Record the pipeline produces from the row of wsF: the region passes
through untouched. -/
def wsRec : OutRecord :=
  { date := some ⟨2024, 1, 5⟩, year := some 2024, month := some 1
    region := some " ", product := some "Widget"
    quantity := some 10, unit_price := some 10
    sales := some 100, profit := some 20, profit_margin := some (1 / 5) }

/-- Transform output on wsF. -/
def wsOut : TransformOutput := { records := [(0, wsRec)], dropped := 0 }

/-- Fixture whose rows arrive in reverse date order. -/
def sortF : RawFrame :=
  { cols := ["date", "region", "product", "quantity", "sales", "profit"]
    rows := [[some "2024-03-01", some "West", some "Zed",
              some "2", some "10", some "1"],
             [some "2024-01-05", some "East", some "Axe",
              some "4", some "20", some "2"]] }

/-- March record of sortF. -/
def recMar : OutRecord :=
  { date := some ⟨2024, 3, 1⟩, year := some 2024, month := some 3
    region := some "West", product := some "Zed"
    quantity := some 2, unit_price := some 5
    sales := some 10, profit := some 1, profit_margin := some (1 / 10) }

/-- January record of sortF. -/
def recJan : OutRecord :=
  { date := some ⟨2024, 1, 5⟩, year := some 2024, month := some 1
    region := some "East", product := some "Axe"
    quantity := some 4, unit_price := some 5
    sales := some 20, profit := some 2, profit_margin := some (1 / 10) }

/-- Transform output on sortF: the January row is sorted first and the
index is re-sequenced. -/
def sortOut : TransformOutput :=
  { records := [(0, recJan), (1, recMar)], dropped := 0 }

/-- Minimal persisted record for report fixtures: only the fields the
report reads. -/
def repRec (p : String) (pr : ℚ) : OutRecord :=
  { date := none, year := none, month := none, region := none
    product := some p, quantity := none, unit_price := none
    sales := none, profit := some pr, profit_margin := none }

/-- Report fixture: six distinct products, two of them tied on total
profit. -/
def repRecs : List OutRecord :=
  [repRec "A" 10, repRec "B" 10, repRec "C" 3,
   repRec "D" 2, repRec "E" 1, repRec "F" 0]

/-! Order-theoretic facts about the comparators: the sort key order is
symmetric (oriented) and transitive, which is what the stable-sort lemmas
of the library require. -/

theorem then_ne_gt {o p : Ordering} :
    o.then p ≠ .gt ↔ o = .lt ∨ (o = .eq ∧ p ≠ .gt) := by
  cases o <;> simp [Ordering.then]

theorem charsCmp_symm : ∀ a b : List Char, (charsCmp a b).swap = charsCmp b a
  | [], [] => rfl
  | [], _ :: _ => rfl
  | _ :: _, [] => rfl
  | a :: as, b :: bs => by
    simp only [charsCmp, Ordering.swap_then, charsCmp_symm as bs]
    rw [show (compare a b).swap = compare b a from Batteries.OrientedCmp.symm a b]

theorem charsCmp_le_trans :
    ∀ x y z : List Char,
      charsCmp x y ≠ .gt → charsCmp y z ≠ .gt → charsCmp x z ≠ .gt
  | [], _, [], _, _ => by simp [charsCmp]
  | [], _, _ :: _, _, _ => by simp [charsCmp]
  | a :: as, [], z, h1, h2 => (h1 rfl).elim
  | a :: as, b :: bs, [], h1, h2 => (h2 rfl).elim
  | a :: as, b :: bs, c :: cs, h1, h2 => by
    rw [charsCmp, then_ne_gt] at h1 h2 ⊢
    rcases h1 with h1 | ⟨h1e, h1r⟩
    · rcases h2 with h2 | ⟨h2e, h2r⟩
      · exact .inl (Batteries.TransCmp.lt_trans h1 h2)
      · exact .inl (by rw [Batteries.TransCmp.cmp_congr_right h2e] at h1; exact h1)
    · rcases h2 with h2 | ⟨h2e, h2r⟩
      · exact .inl (by rw [Batteries.TransCmp.cmp_congr_left h1e]; exact h2)
      · exact .inr ⟨by rw [Batteries.TransCmp.cmp_congr_left h1e]; exact h2e,
          charsCmp_le_trans as bs cs h1r h2r⟩

instance : Batteries.TransCmp charsCmp where
  symm a b := charsCmp_symm a b
  le_trans h1 h2 := charsCmp_le_trans _ _ _ h1 h2

instance : Batteries.TransCmp strCmp :=
  inferInstanceAs (Batteries.TransCmp (onCmp String.data charsCmp))

instance {α : Type} (cmp : α → α → Ordering) [inst : Batteries.TransCmp cmp] :
    Batteries.TransCmp (optCmp cmp) where
  symm x y := by
    cases x <;> cases y <;> simp [optCmp, Ordering.swap]
    exact inst.symm _ _
  le_trans := by
    intro x y z h1 h2
    cases x <;> cases y <;> cases z <;> simp_all [optCmp]
    exact inst.le_trans h1 h2

instance : Batteries.TransCmp (optCmp dateCmp) :=
  inferInstance

instance : Batteries.TransCmp keyCmp :=
  inferInstanceAs (Batteries.TransCmp (compareLex _ _))

theorem pairLE_trans (a b c : Nat × OutRecord) (h1 : pairLE a b) (h2 : pairLE b c) :
    pairLE a c := by
  simp only [pairLE, rowLE, decide_eq_true_eq] at h1 h2 ⊢
  exact Batteries.TransCmp.le_trans h1 h2

theorem pairLE_total (a b : Nat × OutRecord) : pairLE a b || pairLE b a := by
  simp only [pairLE, rowLE, Bool.or_eq_true, decide_eq_true_eq]
  by_cases h : keyCmp a.2 b.2 = .gt
  · exact .inr fun hr => by
      simp [Batteries.OrientedCmp.cmp_eq_gt.mp h] at hr
  · exact .inl h

/-! Generic facts about duplicate removal. -/

theorem mem_of_mem_dropDupAux {α β : Type} [DecidableEq β] (key : α → β) :
    ∀ (seen : List β) (l : List α) (a : α), a ∈ dropDupAux key seen l → a ∈ l
  | _, [], _, h => by simp [dropDupAux] at h
  | seen, x :: xs, a, h => by
    rw [dropDupAux] at h
    split at h
    · exact .tail _ (mem_of_mem_dropDupAux key seen xs a h)
    · cases h with
      | head => exact .head _
      | tail _ h => exact .tail _ (mem_of_mem_dropDupAux key _ xs a h)

theorem mem_of_mem_dropDuplicates {α β : Type} [DecidableEq β] (key : α → β)
    (l : List α) (a : α) (h : a ∈ dropDuplicates key l) : a ∈ l :=
  mem_of_mem_dropDupAux key [] l a h

/-! Inversion of a successful transform and data-flow membership facts. -/

theorem transform_eq_ok {f : RawFrame} {out : TransformOutput}
    (h : transform f = .ok out) : out = transformOk f := by
  unfold transform at h
  split at h
  · injection h with h
    exact h.symm
  · exact Except.noConfusion h

theorem mem_sanitize_of_mem_records {f : RawFrame} {out : TransformOutput}
    (h : transform f = .ok out) {p : Nat × OutRecord} (hp : p ∈ out.records) :
    ∃ q ∈ sanitize (coercedRows f), p.2 = derive q.2 := by
  obtain rfl := transform_eq_ok h
  obtain ⟨i, r⟩ := p
  have h1 := List.mem_enum hp
  have h2 : r ∈ (sortedRows (coercedRows f)).map Prod.snd :=
    h1.2 ▸ List.getElem_mem h1.1
  obtain ⟨pr, hmem, heq⟩ := List.mem_map.mp h2
  have h3 : pr ∈ derivedRows (coercedRows f) := List.mem_mergeSort.mp hmem
  obtain ⟨q, hq, hqe⟩ := List.mem_map.mp h3
  exact ⟨q, hq, by rw [show r = pr.2 from heq.symm, ← hqe]⟩

theorem of_mem_sanitize {pairs : List (Nat × Row)} {q : Nat × Row}
    (h : q ∈ sanitize pairs) :
    rowComplete q.2 = true ∧ rowPositive q.2 = true := by
  unfold sanitize at h
  have h1 := List.mem_filter.mp h
  exact ⟨(List.mem_filter.mp h1.1).2, h1.2⟩

theorem rowComplete_fields {r : Row} (h : rowComplete r = true) :
    (∃ d, r.date = some d) ∧ (∃ s, r.product = some s) ∧
    (∃ q, r.quantity = some q) ∧ (∃ s, r.sales = some s) ∧
    (∃ p, r.profit = some p) := by
  simpa [rowComplete, Option.isSome_iff_exists, and_assoc] using h

theorem rowPositive_values {r : Row} {q s : ℚ} (hq : r.quantity = some q)
    (hs : r.sales = some s) (h : rowPositive r = true) : 0 < q ∧ 0 < s := by
  simpa [rowPositive, hq, hs] using h

/-! Closed-form evaluation of the pipeline on the fixtures. -/

theorem transform_exF : transform exF = .ok exOut := by
  have hs : sanitize (coercedRows exF) =
      [(0, { date := some ⟨2024, 1, 5⟩, region := some "East",
             product := some "Widget", sales := some 100, quantity := some 10,
             profit := some 20, extra := [] })] := by decide
  have hd : derivedRows (coercedRows exF) = [(0, exRec)] := by
    unfold derivedRows
    rw [hs]
    simp only [List.map_cons, List.map_nil, derive, exRec, Option.bind,
      Option.map_some, safeDiv]
    norm_num [roundTo, roundHalfEven]
  have hm : sortedRows (coercedRows exF) = [(0, exRec)] := by
    unfold sortedRows
    rw [hd]
    exact List.mergeSort_singleton _
  have hcond : (missingCols exF).isEmpty = true := by decide
  have hdrop : droppedCount (coercedRows exF) = 0 := by decide
  simp only [transform, hcond, if_true, transformOk, hm, hdrop]
  rfl

/-! Claim theorems. -/

/-- C1: for every input accepted by the pipeline, every record of the
transform output has non-null date, product, quantity, sales and profit,
and its quantity and sales are strictly positive. -/
theorem c1_persisted_invariants (f : RawFrame) (out : TransformOutput)
    (h : transform f = .ok out) :
    ∀ p ∈ out.records,
      p.2.date.isSome ∧ p.2.product.isSome ∧
      (∃ q, p.2.quantity = some q ∧ 0 < q) ∧
      (∃ s, p.2.sales = some s ∧ 0 < s) ∧
      p.2.profit.isSome := by
  intro p hp
  obtain ⟨q, hq, hder⟩ := mem_sanitize_of_mem_records h hp
  obtain ⟨hc, hpos⟩ := of_mem_sanitize hq
  obtain ⟨⟨d, hd⟩, ⟨pr, hprod⟩, ⟨qty, hqty⟩, ⟨sl, hsl⟩, ⟨pf, hpf⟩⟩ :=
    rowComplete_fields hc
  obtain ⟨hq0, hs0⟩ := rowPositive_values hqty hsl hpos
  rw [hder]
  refine ⟨?_, ?_, ⟨qty, ?_, hq0⟩, ⟨sl, ?_, hs0⟩, ?_⟩ <;>
    simp [derive, hd, hprod, hqty, hsl, hpf]

/-- C1 witness: the invariant instantiated on the fixture exF. -/
theorem c1_witness :
    transform exF = .ok exOut ∧
    ∀ p ∈ exOut.records,
      p.2.date.isSome ∧ p.2.product.isSome ∧
      (∃ q, p.2.quantity = some q ∧ 0 < q) ∧
      (∃ s, p.2.sales = some s ∧ 0 < s) ∧
      p.2.profit.isSome :=
  ⟨transform_exF, c1_persisted_invariants exF exOut transform_exF⟩

/-- C2: every record of the transform output carries
unit_price = round(sales / quantity, 2) and
profit_margin = round(profit / sales, 4), with positive divisors
established by the sanitizer. -/
theorem c2_derived_fields (f : RawFrame) (out : TransformOutput)
    (h : transform f = .ok out) :
    ∀ p ∈ out.records,
      ∃ q s pr, p.2.quantity = some q ∧ p.2.sales = some s ∧
        p.2.profit = some pr ∧ 0 < q ∧ 0 < s ∧
        p.2.unit_price = some (roundTo 2 (s / q)) ∧
        p.2.profit_margin = some (roundTo 4 (pr / s)) := by
  intro p hp
  obtain ⟨rw0, hq, hder⟩ := mem_sanitize_of_mem_records h hp
  obtain ⟨hc, hpos⟩ := of_mem_sanitize hq
  obtain ⟨⟨d, hd⟩, ⟨prd, hprod⟩, ⟨qty, hqty⟩, ⟨sl, hsl⟩, ⟨pf, hpf⟩⟩ :=
    rowComplete_fields hc
  obtain ⟨hq0, hs0⟩ := rowPositive_values hqty hsl hpos
  refine ⟨qty, sl, pf, ?_, ?_, ?_, hq0, hs0, ?_, ?_⟩ <;>
    rw [hder] <;>
    simp [derive, hqty, hsl, hpf, safeDiv, (ne_of_gt hq0), (ne_of_gt hs0)]

/-- C2 witness: derived-field correctness instantiated on the fixture exF. -/
theorem c2_witness :
    transform exF = .ok exOut ∧
    ∀ p ∈ exOut.records,
      ∃ q s pr, p.2.quantity = some q ∧ p.2.sales = some s ∧
        p.2.profit = some pr ∧ 0 < q ∧ 0 < s ∧
        p.2.unit_price = some (roundTo 2 (s / q)) ∧
        p.2.profit_margin = some (roundTo 4 (pr / s)) :=
  ⟨transform_exF, c2_derived_fields exF exOut transform_exF⟩

/-- C7: no record reaching the derivation step has a zero quantity or zero
sales, so both divisions are taken with a nonzero divisor and the
divide-by-zero branch of safeDiv is never reached: the derived fields of
every output record are present. -/
theorem c7_division_safe (f : RawFrame) (out : TransformOutput)
    (h : transform f = .ok out) :
    ∀ p ∈ out.records,
      p.2.quantity ≠ some 0 ∧ p.2.sales ≠ some 0 ∧
      p.2.unit_price.isSome ∧ p.2.profit_margin.isSome := by
  intro p hp
  obtain ⟨rw0, hq, hder⟩ := mem_sanitize_of_mem_records h hp
  obtain ⟨hc, hpos⟩ := of_mem_sanitize hq
  obtain ⟨⟨d, hd⟩, ⟨prd, hprod⟩, ⟨qty, hqty⟩, ⟨sl, hsl⟩, ⟨pf, hpf⟩⟩ :=
    rowComplete_fields hc
  obtain ⟨hq0, hs0⟩ := rowPositive_values hqty hsl hpos
  rw [hder]
  refine ⟨?_, ?_, ?_, ?_⟩ <;>
    simp [derive, hqty, hsl, hpf, safeDiv, (ne_of_gt hq0), (ne_of_gt hs0)]

/-- C7 witness: division safety instantiated on the fixture exF. -/
theorem c7_witness :
    transform exF = .ok exOut ∧
    ∀ p ∈ exOut.records,
      p.2.quantity ≠ some 0 ∧ p.2.sales ≠ some 0 ∧
      p.2.unit_price.isSome ∧ p.2.profit_margin.isSome :=
  ⟨transform_exF, c7_division_safe exF exOut transform_exF⟩

/-! Refinement of the sanitizer against its specification, step by step. -/

theorem fillRegion_eq_spec (r : Row) : fillRegion r = specFillRegion r := by
  obtain ⟨d, reg, prod, sa, qu, pf, ex⟩ := r
  cases reg with
  | none => simp [fillRegion, specFillRegion]
  | some s =>
    by_cases hs : s = "" <;> simp [fillRegion, specFillRegion, hs]

theorem keepFirstOccurrences_cons {α β : Type} [DecidableEq β] (key : α → β)
    (x : α) (xs : List α) :
    keepFirstOccurrences key (x :: xs) =
      x :: keepFirstOccurrences key (xs.filter fun y => decide (key y ≠ key x)) := by
  simp only [keepFirstOccurrences]

theorem dropDupAux_eq_keepFirst {α β : Type} [DecidableEq β] (key : α → β) :
    ∀ (l : List α) (seen : List β),
      dropDupAux key seen l =
        keepFirstOccurrences key (l.filter fun y => decide (key y ∉ seen))
  | [], seen => by simp [dropDupAux, keepFirstOccurrences]
  | x :: xs, seen => by
    rw [dropDupAux, List.filter_cons]
    by_cases h : key x ∈ seen
    · rw [if_pos h, if_neg (by simp [h])]
      exact dropDupAux_eq_keepFirst key xs seen
    · rw [if_neg h, if_pos (by simp [h])]
      rw [keepFirstOccurrences_cons, List.filter_filter,
        dropDupAux_eq_keepFirst key xs (key x :: seen)]
      have hf : (List.filter (fun y => decide (key y ∉ key x :: seen)) xs) =
          (List.filter
            (fun a => decide (key a ≠ key x) && decide (key a ∉ seen)) xs) :=
        List.filter_congr fun y hy => by
          rw [Bool.eq_iff_iff]
          simp [not_or]
      rw [hf]

theorem dropDuplicates_eq_keepFirst {α β : Type} [DecidableEq β] (key : α → β)
    (l : List α) : dropDuplicates key l = keepFirstOccurrences key l := by
  rw [dropDuplicates, dropDupAux_eq_keepFirst key l []]
  congr 1
  simp

theorem rowComplete_eq_spec (r : Row) : rowComplete r = ! specIncomplete r := by
  rw [Bool.eq_iff_iff]
  simp [rowComplete, specIncomplete, Option.isSome_iff_ne_none, not_or,
    and_assoc]

theorem rowPositive_eq_spec {r : Row} (h : rowComplete r = true) :
    rowPositive r = ! specNonpositive r := by
  obtain ⟨_, _, ⟨qv, hq⟩, ⟨sv, hs⟩, _⟩ := rowComplete_fields h
  rw [Bool.eq_iff_iff]
  simp [rowPositive, specNonpositive, hq, hs, not_or, not_le]

theorem sanitize_eq_specSanitize (pairs : List (Nat × Row)) :
    sanitize pairs = specSanitize pairs := by
  unfold sanitize specSanitize completeRows dedupedRows filledRows
  have hfill : (fun (p : Nat × Row) => (p.1, fillRegion p.2)) =
      (fun p => (p.1, specFillRegion p.2)) :=
    funext fun p => by rw [fillRegion_eq_spec]
  rw [hfill, dropDuplicates_eq_keepFirst]
  have hcomp : (fun (p : Nat × Row) => rowComplete p.2) =
      (fun p => ! specIncomplete p.2) :=
    funext fun p => rowComplete_eq_spec p.2
  rw [hcomp]
  apply List.filter_congr
  intro p hp
  have hc : rowComplete p.2 = true := by
    rw [rowComplete_eq_spec]
    exact (List.mem_filter.mp hp).2
  exact rowPositive_eq_spec hc

theorem transform_gadgetF : transform gadgetF = .ok gadgetOut := by
  have hs : sanitize (coercedRows gadgetF) =
      [(0, { date := some ⟨2024, 2, 1⟩, region := some "Unknown",
             product := some "Gadget", sales := some 50, quantity := some 5,
             profit := some (-5), extra := [] })] := by decide
  have hd : derivedRows (coercedRows gadgetF) = [(0, gadgetRec)] := by
    unfold derivedRows
    rw [hs]
    simp only [List.map_cons, List.map_nil, derive, gadgetRec, Option.bind,
      Option.map_some, safeDiv]
    norm_num [roundTo, roundHalfEven]
  have hm : sortedRows (coercedRows gadgetF) = [(0, gadgetRec)] := by
    unfold sortedRows
    rw [hd]
    exact List.mergeSort_singleton _
  have hcond : (missingCols gadgetF).isEmpty = true := by decide
  have hdrop : droppedCount (coercedRows gadgetF) = 0 := by decide
  simp only [transform, hcond, if_true, transformOk, hm, hdrop]
  rfl

/-- C3: the sanitizer applies exactly the four specified steps in the
specified order (region sentinel fill, first-wins duplicate removal,
missing-value drop, positivity drop), and on the scenario row
("2024-02-01", "", "Gadget", "5", "50", "-5") the row is retained with
region resolved to "Unknown" and its negative profit kept. -/
theorem c3_sanitizer_order :
    (∀ pairs : List (Nat × Row), sanitize pairs = specSanitize pairs) ∧
    transform gadgetF = .ok gadgetOut ∧
    gadgetRec.region = some "Unknown" ∧ gadgetRec.profit = some (-5) :=
  ⟨sanitize_eq_specSanitize, transform_gadgetF, rfl, rfl⟩

theorem transform_dupF : transform dupF = .ok dupOut := by
  have hs : sanitize (coercedRows dupF) =
      [(0, { date := some ⟨2024, 1, 5⟩, region := some "East",
             product := some "Widget", sales := some 100, quantity := some 10,
             profit := some 20, extra := [] })] := by decide
  have hd : derivedRows (coercedRows dupF) = [(0, exRec)] := by
    unfold derivedRows
    rw [hs]
    simp only [List.map_cons, List.map_nil, derive, exRec, Option.bind,
      Option.map_some, safeDiv]
    norm_num [roundTo, roundHalfEven]
  have hm : sortedRows (coercedRows dupF) = [(0, exRec)] := by
    unfold sortedRows
    rw [hd]
    exact List.mergeSort_singleton _
  have hcond : (missingCols dupF).isEmpty = true := by decide
  have hdrop : droppedCount (coercedRows dupF) = 0 := by decide
  simp only [transform, hcond, if_true, transformOk, hm, hdrop]
  rfl

/-- C4 counterexample: on a frame with two byte-identical valid rows, the
code reports 0 dropped rows, while the original row count minus the count
after the positivity filter is 1; the diagnostic baseline is taken after
duplicate removal, not before it. -/
theorem c4_counterexample :
    transform dupF = .ok dupOut ∧
    dupOut.dropped = 0 ∧
    dupF.rows.length - (sanitize (coercedRows dupF)).length = 1 ∧
    dupOut.dropped ≠ dupF.rows.length - (sanitize (coercedRows dupF)).length :=
  ⟨transform_dupF, rfl, by decide, by decide⟩

/-- C4 amended: the dropped-rows diagnostic equals the row count taken
after duplicate removal minus the number of records finally persisted. -/
theorem c4_dropped_count (f : RawFrame) (out : TransformOutput)
    (h : transform f = .ok out) :
    out.dropped = (dedupedRows (coercedRows f)).length - out.records.length := by
  obtain rfl := transform_eq_ok h
  show droppedCount (coercedRows f) = _
  unfold droppedCount
  congr 1
  simp [transformOk, sortedRows, derivedRows]

/-- C4 witness: the amended count instantiated on the duplicate fixture. -/
theorem c4_witness :
    dupOut.dropped =
      (dedupedRows (coercedRows dupF)).length - dupOut.records.length :=
  c4_dropped_count dupF dupOut transform_dupF

theorem transform_extraF : transform extraF = .ok extraOut := by
  have hs : sanitize (coercedRows extraF) =
      [(0, { date := some ⟨2024, 1, 5⟩, region := some "East",
             product := some "Widget", sales := some 100, quantity := some 10,
             profit := some 20, extra := [some "A"] }),
       (1, { date := some ⟨2024, 1, 5⟩, region := some "East",
             product := some "Widget", sales := some 100, quantity := some 10,
             profit := some 20, extra := [some "B"] })] := by decide
  have hd : derivedRows (coercedRows extraF) = [(0, exRec), (1, exRec)] := by
    unfold derivedRows
    rw [hs]
    simp only [List.map_cons, List.map_nil, derive, exRec, Option.bind,
      Option.map_some, safeDiv]
    norm_num [roundTo, roundHalfEven]
  have hm : sortedRows (coercedRows extraF) = [(0, exRec), (1, exRec)] := by
    unfold sortedRows
    rw [hd]
    exact List.mergeSort_of_sorted (by decide)
  have hcond : (missingCols extraF).isEmpty = true := by decide
  have hdrop : droppedCount (coercedRows extraF) = 0 := by decide
  simp only [transform, hcond, if_true, transformOk, hm, hdrop]
  rfl

/-- C9: duplicate removal compares the coerced rows over all columns,
including the extra note column the projection later drops; two input rows
that differ only there both survive deduplication, and the transform output
then holds two records that agree on every output column. -/
theorem c9_extra_column_duplicates :
    transform extraF = .ok extraOut ∧
    extraOut.records.map Prod.snd = [exRec, exRec] ∧
    ((coercedRows extraF).map fun p => p.2.extra) =
      [[some "A"], [some "B"]] ∧
    ((coercedRows extraF).map fun p => { p.2 with extra := [] }) =
      [{ date := some ⟨2024, 1, 5⟩, region := some "East",
         product := some "Widget", sales := some 100, quantity := some 10,
         profit := some 20, extra := [] },
       { date := some ⟨2024, 1, 5⟩, region := some "East",
         product := some "Widget", sales := some 100, quantity := some 10,
         profit := some 20, extra := [] }] ∧
    (dedupedRows (coercedRows extraF)).length = 2 :=
  ⟨transform_extraF, rfl, by decide, by decide, by decide⟩

theorem transform_wsF : transform wsF = .ok wsOut := by
  have hs : sanitize (coercedRows wsF) =
      [(0, { date := some ⟨2024, 1, 5⟩, region := some " ",
             product := some "Widget", sales := some 100, quantity := some 10,
             profit := some 20, extra := [] })] := by decide
  have hd : derivedRows (coercedRows wsF) = [(0, wsRec)] := by
    unfold derivedRows
    rw [hs]
    simp only [List.map_cons, List.map_nil, derive, wsRec, Option.bind,
      Option.map_some, safeDiv]
    norm_num [roundTo, roundHalfEven]
  have hm : sortedRows (coercedRows wsF) = [(0, wsRec)] := by
    unfold sortedRows
    rw [hd]
    exact List.mergeSort_singleton _
  have hcond : (missingCols wsF).isEmpty = true := by decide
  have hdrop : droppedCount (coercedRows wsF) = 0 := by decide
  simp only [transform, hcond, if_true, transformOk, hm, hdrop]
  rfl

/-- C10: the region fill replaces exactly the missing value and the exact
empty string; any other region value, including the whitespace-only " ",
passes through the sanitizer unchanged, as the wsF pipeline run shows. -/
theorem c10_region_fill_exact :
    (∀ (r : Row) (s : String), r.region = some s → s ≠ "" → fillRegion r = r) ∧
    (∀ r : Row, r.region = none → (fillRegion r).region = some "Unknown") ∧
    (∀ r : Row, r.region = some "" → (fillRegion r).region = some "Unknown") ∧
    transform wsF = .ok wsOut ∧ wsRec.region = some " " := by
  refine ⟨?_, ?_, ?_, transform_wsF, rfl⟩
  · intro r s hr hs
    obtain ⟨d, reg, prod, sa, qu, pf, ex⟩ := r
    simp only at hr
    subst hr
    simp [fillRegion, hs]
  · intro r hr
    obtain ⟨d, reg, prod, sa, qu, pf, ex⟩ := r
    simp only at hr
    subst hr
    simp [fillRegion]
  · intro r hr
    obtain ⟨d, reg, prod, sa, qu, pf, ex⟩ := r
    simp only at hr
    subst hr
    simp [fillRegion]

/-- C10 witness: the pass-through case applied to a concrete row whose
region is the whitespace-only string. -/
theorem c10_witness :
    fillRegion
      { date := none, region := some " ", product := none, sales := none,
        quantity := none, profit := none, extra := [] } =
      { date := none, region := some " ", product := none, sales := none,
        quantity := none, profit := none, extra := [] } :=
  c10_region_fill_exact.1 _ " " rfl (by decide)

/-- C6: transform fails exactly when a required column is absent after
name normalization, the error lists exactly the missing names, and on a
frame with all required columns present it always succeeds: data-quality
problems never raise, they only coerce to missing markers. -/
theorem c6_schema_error (f : RawFrame) :
    (transform f).isOk = (missingCols f).isEmpty ∧
    (transform f = .ok (transformOk f) ∨
      transform f = .error (missingCols f)) ∧
    (∀ c, c ∈ missingCols f ↔
      c ∈ requiredCols ∧ c ∉ f.cols.map normalizeCol) := by
  refine ⟨?_, ?_, ?_⟩
  · by_cases h : (missingCols f).isEmpty <;>
      simp [transform, h, Except.isOk, Except.toBool]
  · by_cases h : (missingCols f).isEmpty <;>
      simp [transform, h]
  · intro c
    simp [missingCols, List.mem_filter]

theorem groupTotals_repRecs :
    groupTotals repRecs =
      [(some "A", 10), (some "B", 10), (some "C", 3),
       (some "D", 2), (some "E", 1), (some "F", 0)] := by
  have hk : productKeys repRecs =
      [some "A", some "B", some "C", some "D", some "E", some "F"] := by decide
  have hA : ((repRecs.filter fun r => decide (r.product = some "A")).filterMap
      OutRecord.profit) = [10] := by decide
  have hB : ((repRecs.filter fun r => decide (r.product = some "B")).filterMap
      OutRecord.profit) = [10] := by decide
  have hC : ((repRecs.filter fun r => decide (r.product = some "C")).filterMap
      OutRecord.profit) = [3] := by decide
  have hD : ((repRecs.filter fun r => decide (r.product = some "D")).filterMap
      OutRecord.profit) = [2] := by decide
  have hE : ((repRecs.filter fun r => decide (r.product = some "E")).filterMap
      OutRecord.profit) = [1] := by decide
  have hF : ((repRecs.filter fun r => decide (r.product = some "F")).filterMap
      OutRecord.profit) = [0] := by decide
  unfold groupTotals
  rw [hk]
  simp only [List.map_cons, List.map_nil, hA, hB, hC, hD, hE, hF]
  norm_num [roundTo, roundHalfEven]

theorem topProducts_repRecs :
    topProductsByProfit repRecs =
      [(some "A", 10), (some "B", 10), (some "C", 3),
       (some "D", 2), (some "E", 1)] := by
  unfold topProductsByProfit
  rw [groupTotals_repRecs, List.mergeSort_of_sorted (by decide)]
  rfl

/-- C8 counterexample: on six distinct products with two of them tied on
total profit, the report does return 5 rows but they are not strictly
descending: the first two totals are equal. -/
theorem c8_counterexample :
    (productKeys repRecs).length = 6 ∧
    topProductsByProfit repRecs =
      [(some "A", 10), (some "B", 10), (some "C", 3),
       (some "D", 2), (some "E", 1)] ∧
    ¬ List.Chain' (fun a b => b.2 < a.2) (topProductsByProfit repRecs) := by
  refine ⟨by decide, topProducts_repRecs, ?_⟩
  rw [topProducts_repRecs]
  intro h
  have h01 := (List.chain'_cons.mp h).1
  exact absurd h01 (by norm_num)

theorem qge_trans (a b c : Option String × ℚ)
    (h1 : decide (b.2 ≤ a.2) = true) (h2 : decide (c.2 ≤ b.2) = true) :
    decide (c.2 ≤ a.2) = true := by
  simp only [decide_eq_true_eq] at h1 h2 ⊢
  exact le_trans h2 h1

theorem qge_total (a b : Option String × ℚ) :
    (decide (b.2 ≤ a.2) || decide (a.2 ≤ b.2)) = true := by
  simp only [Bool.or_eq_true, decide_eq_true_eq]
  exact (le_total b.2 a.2)

/-- C8 amended: the report sums profit by product, rounds to 2 decimals,
sorts by total in non-increasing order (strict descent only when the
totals are pairwise distinct) and truncates to 5 rows; on six distinct
products exactly 5 rows are returned. -/
theorem c8_top5_by_profit (recs : List OutRecord) :
    ((productKeys recs).length = 6 → (topProductsByProfit recs).length = 5) ∧
    List.Pairwise (fun a b => b.2 ≤ a.2) (topProductsByProfit recs) ∧
    ∀ x ∈ topProductsByProfit recs,
      x.2 = roundTo 2 (((recs.filter fun r => decide (r.product = x.1)).filterMap
        OutRecord.profit).sum) := by
  refine ⟨?_, ?_, ?_⟩
  · intro h6
    unfold topProductsByProfit
    rw [List.length_take, List.length_mergeSort]
    unfold groupTotals
    rw [List.length_map, h6]
    omega
  · unfold topProductsByProfit
    have hp := List.sorted_mergeSort qge_trans qge_total (groupTotals recs)
    exact List.Pairwise.sublist (List.take_sublist _ _)
      (hp.imp fun h => of_decide_eq_true h)
  · intro x hx
    have hx1 : x ∈ (groupTotals recs).mergeSort
        (fun a b => decide (b.2 ≤ a.2)) :=
      (List.take_sublist _ _).subset hx
    have hx2 : x ∈ groupTotals recs := List.mem_mergeSort.mp hx1
    obtain ⟨k, hk, heq⟩ := List.mem_map.mp hx2
    rw [← heq]

/-- C8 witness: the truncation and count, instantiated on the six-product
fixture. -/
theorem c8_witness :
    (productKeys repRecs).length = 6 ∧
    (topProductsByProfit repRecs).length = 5 :=
  ⟨by decide, (c8_top5_by_profit repRecs).1 (by decide)⟩

/-! Stability of the sort: filtering the sorted list by any class of
mutually tied elements returns those elements in their pre-sort order. -/

theorem filter_mergeSort_of_const {α : Type} (le : α → α → Bool)
    (trans : ∀ a b c, le a b = true → le b c = true → le a c = true)
    (total : ∀ a b, (le a b || le b a) = true)
    (p : α → Bool) (hp : ∀ a b, p a = true → p b = true → le a b = true)
    (l : List α) : (l.mergeSort le).filter p = l.filter p := by
  have hself : (l.filter p).filter p = l.filter p :=
    List.filter_eq_self.mpr fun a ha => (List.mem_filter.mp ha).2
  have hpair : List.Pairwise (fun a b => le a b = true) (l.filter p) :=
    List.pairwise_of_forall_mem_list fun a ha b hb =>
      hp a b (List.mem_filter.mp ha).2 (List.mem_filter.mp hb).2
  have hsub : (l.filter p).Sublist (l.mergeSort le) :=
    List.sublist_mergeSort trans total hpair (List.filter_sublist l)
  have hsub2 : (l.filter p).Sublist ((l.mergeSort le).filter p) :=
    hself ▸ hsub.filter p
  have hlen : ((l.mergeSort le).filter p).length = (l.filter p).length :=
    ((l.mergeSort_perm le).filter p).length_eq
  exact (hsub2.eq_of_length hlen.symm).symm

theorem pairLE_of_tied {k : OutRecord} {a b : Nat × OutRecord}
    (ha : decide (keyCmp a.2 k = .eq) = true)
    (hb : decide (keyCmp b.2 k = .eq) = true) : pairLE a b = true := by
  simp only [decide_eq_true_eq] at ha hb
  have hab : keyCmp a.2 b.2 = keyCmp a.2 k :=
    Batteries.TransCmp.cmp_congr_right hb
  simp [pairLE, rowLE, hab, ha]

/-- C5: the output column list is exactly the ten specified names in order;
on every accepted input the records are sorted ascending by the
(date, region, product) key, rows fully tied on that key keep their
pre-sort relative order (stable sort), and the row index is re-sequenced
to 0, 1, 2, ... -/
theorem c5_projection_sort_index :
    outputCols = ["date", "year", "month", "region", "product", "quantity",
      "unit_price", "sales", "profit", "profit_margin"] ∧
    ∀ f out, transform f = .ok out →
      List.Pairwise (fun a b => keyCmp a.2 b.2 ≠ Ordering.gt) out.records ∧
      (∀ k : OutRecord,
        (out.records.map Prod.snd).filter (fun r => decide (keyCmp r k = .eq)) =
          ((derivedRows (coercedRows f)).map Prod.snd).filter
            (fun r => decide (keyCmp r k = .eq))) ∧
      out.records.map Prod.fst = List.range out.records.length := by
  refine ⟨rfl, ?_⟩
  intro f out h
  obtain rfl := transform_eq_ok h
  refine ⟨?_, ?_, ?_⟩
  · show List.Pairwise _ ((sortedRows (coercedRows f)).map Prod.snd).enum
    have h1 : List.Pairwise (fun a b : Nat × OutRecord => pairLE a b = true)
        (sortedRows (coercedRows f)) :=
      List.sorted_mergeSort (fun a b c => pairLE_trans a b c)
        pairLE_total (derivedRows (coercedRows f))
    have h2 : List.Pairwise (fun a b : OutRecord => keyCmp a b ≠ Ordering.gt)
        ((sortedRows (coercedRows f)).map Prod.snd) := by
      rw [List.pairwise_map]
      exact h1.imp fun hab => by
        simpa [pairLE, rowLE, decide_eq_true_eq] using hab
    have h3 := (List.pairwise_map
      (f := (Prod.snd : Nat × OutRecord → OutRecord))).mp
      ((List.enum_map_snd ((sortedRows (coercedRows f)).map Prod.snd)).symm ▸ h2)
    exact h3
  · intro k
    show (((sortedRows (coercedRows f)).map Prod.snd).enum.map Prod.snd).filter _ = _
    rw [List.enum_map_snd]
    unfold sortedRows
    rw [List.filter_map, List.filter_map]
    exact congrArg (List.map Prod.snd)
      (filter_mergeSort_of_const pairLE (fun a b c => pairLE_trans a b c)
        pairLE_total
        ((fun r => decide (keyCmp r k = Ordering.eq)) ∘ Prod.snd)
        (fun a b ha hb => pairLE_of_tied ha hb) (derivedRows (coercedRows f)))
  · have hr : (transformOk f).records =
        ((sortedRows (coercedRows f)).map Prod.snd).enum := rfl
    rw [hr, List.enum_map_fst, List.enum_length]

theorem transform_sortF : transform sortF = .ok sortOut := by
  have hs : sanitize (coercedRows sortF) =
      [(0, { date := some ⟨2024, 3, 1⟩, region := some "West",
             product := some "Zed", sales := some 10, quantity := some 2,
             profit := some 1, extra := [] }),
       (1, { date := some ⟨2024, 1, 5⟩, region := some "East",
             product := some "Axe", sales := some 20, quantity := some 4,
             profit := some 2, extra := [] })] := by decide
  have hd : derivedRows (coercedRows sortF) = [(0, recMar), (1, recJan)] := by
    unfold derivedRows
    rw [hs]
    simp only [List.map_cons, List.map_nil, derive, recMar, recJan,
      Option.bind, Option.map_some, safeDiv]
    norm_num [roundTo, roundHalfEven]
  have hle : pairLE (0, recMar) (1, recJan) = false := by decide
  have hm : sortedRows (coercedRows sortF) = [(1, recJan), (0, recMar)] := by
    unfold sortedRows
    rw [hd]
    simp [List.mergeSort, List.merge, hle]
  have hcond : (missingCols sortF).isEmpty = true := by decide
  have hdrop : droppedCount (coercedRows sortF) = 0 := by decide
  simp only [transform, hcond, if_true, transformOk, hm, hdrop]
  rfl

/-- C5 witness: sortedness, stability and index re-sequencing instantiated
on the fixture whose rows arrive in reverse date order. -/
theorem c5_witness :
    transform sortF = .ok sortOut ∧
    List.Pairwise (fun a b => keyCmp a.2 b.2 ≠ Ordering.gt) sortOut.records ∧
    (sortOut.records.map Prod.snd).filter
        (fun r => decide (keyCmp r recJan = .eq)) =
      ((derivedRows (coercedRows sortF)).map Prod.snd).filter
        (fun r => decide (keyCmp r recJan = .eq)) ∧
    sortOut.records.map Prod.fst = List.range sortOut.records.length := by
  have h := c5_projection_sort_index.2 sortF sortOut transform_sortF
  exact ⟨transform_sortF, h.1, h.2.1 recJan, h.2.2⟩

end SalesEtl
